import Mathlib

/-!
Verification of the C structural scanner (`cg/parse.py`, known through
`Lib/test/test_c_statics/test_cg/test_parse.py`) and of the file-enumeration
helpers (`Tools/c-analyzer/c_analyzer_common/files.py`).

The scanner module itself is not part of the source tree that was provided;
only its unit tests are.  The definitions in namespace `CGParse` are
therefore modelled from the specification, with every behavioural point
that the in-repo unit tests pin down (expected outputs of
`IterGlobalDeclarationsTests` and `IterVariablesTests`) reproduced exactly.
The `CFiles` namespace is a direct translation of `files.py`.
-/

namespace CGParse

/-- Modelled from the spec: the comment stripper of the Comment/Whitespace
Normalizer (spec 4.1).  State `true` means we are inside a block comment
carried over from a previous line.  `//` comments run to end of line,
`/*` opens a block comment (closed by `*/`, possibly on a later line;
an unterminated block comment consumes the rest of the input), and the
delimiters of one comment kind are inert inside the other kind. -/
def stripCommentsAux : Bool → List Char → List Char × Bool
  | st, [] => ([], st)
  | true, [_] => ([], true)
  | false, [c] => ([c], false)
  | true, c :: c2 :: rest =>
      if c = '*' ∧ c2 = '/' then stripCommentsAux false rest
      else stripCommentsAux true (c2 :: rest)
  | false, c :: c2 :: rest =>
      if c = '/' ∧ c2 = '/' then ([], false)
      else if c = '/' ∧ c2 = '*' then stripCommentsAux true rest
      else
        let r := stripCommentsAux false (c2 :: rest)
        (c :: r.1, r.2)

/-- Modelled from the spec: strip the comments from one line, threading the
block-comment state. -/
def stripLine (st : Bool) (s : String) : String × Bool :=
  let r := stripCommentsAux st s.data
  (String.mk r.1, r.2)

/-- Modelled from the spec: the Comment/Whitespace Normalizer applied to a
line stream; line boundaries are preserved 1:1. -/
def normalize : Bool → List String → List String
  | _, [] => []
  | st, l :: rest =>
      let r := stripLine st l
      r.1 :: normalize r.2 rest

/-- Drop leading whitespace characters. -/
def ltrim : List Char → List Char
  | [] => []
  | c :: rest => if c.isWhitespace then ltrim rest else c :: rest

/-- Drop trailing whitespace characters. -/
def rtrim : List Char → List Char
  | [] => []
  | c :: rest =>
      let r := rtrim rest
      if r.isEmpty then if c.isWhitespace then [] else [c]
      else c :: r

/-- Drop surrounding whitespace characters (Python `str.strip`). -/
def trimChars (cs : List Char) : List Char := ltrim (rtrim cs)

/-- Drop surrounding whitespace from a string. -/
def strip (s : String) : String := String.mk (trimChars s.data)

/-- Split a character list into maximal whitespace-free words.
`acc` holds the characters of the current word, reversed. -/
def wordsAux (acc : List Char) : List Char → List String
  | [] => if acc.isEmpty then [] else [String.mk acc.reverse]
  | c :: rest =>
      if c.isWhitespace then
        if acc.isEmpty then wordsAux [] rest
        else String.mk acc.reverse :: wordsAux [] rest
      else wordsAux (c :: acc) rest

/-- The whitespace-separated words of a string. -/
def words (s : String) : List String := wordsAux [] s.data

/-- Join words with single spaces: this is how whitespace runs (including
newlines) inside a multi-line statement are collapsed. -/
def joinWords (ws : List String) : String := String.intercalate " " ws

/-- Does the character list end with the given character? -/
def lastIs (c : Char) (cs : List Char) : Bool := cs.getLast? == some c

/-- Scan braces on one line starting at brace depth `d` (relative to the
current body).  Returns `none` when the depth falls back to zero at a
closing brace (the body ends on this line), otherwise the depth after
the line. -/
def scanLineDepth : Nat → List Char → Option Nat
  | d, [] => some d
  | d, '\x7b' :: rest => scanLineDepth (d + 1) rest
  | d, '\x7d' :: rest => if d ≤ 1 then none else scanLineDepth (d - 1) rest
  | d, _ :: rest => scanLineDepth d rest

/-- A global declaration: the (normalized) statement text together with the
function body when the declaration is a function definition.  The body is
emitted as a single newline-joined string, matching the pairs asserted by
`IterGlobalDeclarationsTests`. -/
abbrev GDecl := String × Option String

/-- The state of the global declaration scan: either accumulating the words
of a top-level statement at depth 0, or inside a function body with the
collapsed signature, the current brace depth, and the body lines collected
so far. -/
inductive GSt where
  | top (acc : List String)
  | body (sig : String) (depth : Nat) (blines : List String)

/-- Assemble the emitted statement text for a function: the collapsed
signature, then each body line, then the closing brace, newline-separated. -/
def mkStmt (sig : String) (bl : List String) : String :=
  sig ++ "\n" ++ String.intercalate "\n" (bl ++ ["\x7d"])

/-- Modelled from the spec: process one (comment-stripped) line of the
Global Declaration Iterator, returning the next state and the declarations
emitted by this line.  At depth 0 a span ending with `;` is a simple
top-level statement: it is consumed without being emitted (only function
definitions are emitted; the simple-statement case is the behavior the
repo marks as an expected failure).  A `\x7b` at depth 0 starts a function
body; the body is collected, each line trimmed, blank lines dropped, until
the matching `\x7d`, at which point the declaration is emitted. -/
def stepLine : GSt → String → GSt × List GDecl
  | GSt.top acc, line =>
      let t := strip line
      if t.data.isEmpty then (GSt.top acc, [])
      else
        let acc2 := acc ++ words t
        if lastIs ';' t.data then (GSt.top [], [])
        else if t.data.contains '\x7b' then
          match scanLineDepth 0 t.data with
          | some d => (GSt.body (joinWords acc2) d [], [])
          | none => (GSt.top [], [(mkStmt (joinWords acc2) [], some "")])
        else (GSt.top acc2, [])
  | GSt.body sig d bl, line =>
      let t := strip line
      if t.data.isEmpty then (GSt.body sig d bl, [])
      else
        match scanLineDepth d t.data with
        | none =>
            (GSt.top [], [(mkStmt sig bl, some (String.intercalate "\n" bl))])
        | some d2 => (GSt.body sig d2 (bl ++ [t]), [])

/-- Modelled from the spec: run the global declaration scan over
comment-stripped lines.  Reaching end of input with a pending state emits
nothing further: an unterminated function body is dropped, and so is any
text it swallowed. -/
def iterGlobalAux : GSt → List String → List GDecl
  | _, [] => []
  | st, l :: rest =>
      let r := stepLine st l
      r.2 ++ iterGlobalAux r.1 rest

/-- Modelled from the spec: `iter_global_declarations` — strip comments,
then scan for global declarations. -/
def iter_global_declarations (lines : List String) : List GDecl :=
  iterGlobalAux (GSt.top []) (normalize false lines)

/-- The scan state after processing the given lines. -/
def stateAfter (st : GSt) (lines : List String) : GSt :=
  lines.foldl (fun s l => (stepLine s l).1) st

/-- The comment-stripper state after processing the given lines. -/
def normStateAfter (st : Bool) (lines : List String) : Bool :=
  lines.foldl (fun s l => (stripLine s l).2) st

/-- Is the scanner inside a function body? -/
def inBody : GSt → Bool
  | GSt.body _ _ _ => true
  | _ => false

/-- The scan stays strictly inside a function body throughout these lines
(so the body never closes before end of input). -/
def staysInBody : GSt → List String → Bool
  | st, [] => inBody st
  | st, l :: rest => inBody st && staysInBody (stepLine st l).1 rest

/-- A final output record of the driver: enclosing function (or `none` at
file scope), variable name, declared type. -/
abbrev VarRecord := Option String × String × String

/-- A local statement as produced by the Local Statement Iterator: the
statement text, plus for a compound statement the (header, block) pairs. -/
abbrev LocalStmt := String × Option (List (String × String))

/-- The sub-parsers and iterators the driver `iter_variables` orchestrates.
They are injectable collaborators, matching the keyword parameters
`_iter_local`, `_parse_func`, `_parse_var`, `_parse_compound` of the
reference driver; `parseVar` returning `none` models the `(None, None)`
sentinel. -/
structure Collab where
  iterLocal : List String → List LocalStmt
  parseFunc : String → String → String × String × String
  parseVar : String → Option (String × String)
  parseCompound : String → List (String × String) →
      List (List String) × List String

/-- One recorded collaborator invocation, mirroring the `self.calls` log of
the unit tests. -/
inductive Call where
  | iterLocal (lines : List String)
  | parseFunc (stmt body : String)
  | parseVar (stmt : String)
  | parseCompound (stmt : String) (blocks : List (String × String))
deriving DecidableEq

/-- Modelled from the spec: feed each decomposed header fragment of a
compound statement through `parse_var`, yielding a record (tagged with the
enclosing function) for every fragment on which it reports a real name. -/
def doFrags (C : Collab) (fn : String) : List String → List VarRecord × List Call
  | [] => ([], [])
  | f :: rest =>
      let r := doFrags C fn rest
      match C.parseVar f with
      | some nt => ((some fn, nt.1, nt.2) :: r.1, Call.parseVar f :: r.2)
      | none => (r.1, Call.parseVar f :: r.2)

/-- Modelled from the spec: scan the local statements of one scope.  A
simple statement goes through `parse_var`; a compound statement goes
through `parse_compound` and then each decomposed header fragment goes
through `parse_var`, while the raw nested blocks are collected (third
component) to be queued after all sibling statements. -/
def doStmts (C : Collab) (fn : String) :
    List LocalStmt → List VarRecord × List Call × List String
  | [] => ([], [], [])
  | (s, none) :: rest =>
      let r := doStmts C fn rest
      match C.parseVar s with
      | some nt =>
          ((some fn, nt.1, nt.2) :: r.1, Call.parseVar s :: r.2.1, r.2.2)
      | none => (r.1, Call.parseVar s :: r.2.1, r.2.2)
  | (s, some blocks) :: rest =>
      let p := C.parseCompound s blocks
      let f := doFrags C fn p.1.flatten
      let r := doStmts C fn rest
      (f.1 ++ r.1,
       Call.parseCompound s blocks :: (f.2 ++ r.2.1),
       p.2 ++ r.2.2)

/-- Modelled from the spec: the FIFO worklist of pending line groups of one
function.  Each pending block is handed to the Local Statement Iterator;
the nested blocks it reveals are appended to the queue, after the blocks
already pending.  `fuel` bounds the number of blocks processed (the
reference recursion is finite on finite input). -/
def runPending (C : Collab) (fn : String) : Nat → List String → List VarRecord × List Call
  | 0, _ => ([], [])
  | _, [] => ([], [])
  | Nat.succ fuel, b :: rest =>
      let stmts := C.iterLocal [b]
      let r := doStmts C fn stmts
      let nxt := runPending C fn fuel (rest ++ r.2.2)
      (r.1 ++ nxt.1, Call.iterLocal [b] :: (r.2.1 ++ nxt.2))

/-- Modelled from the spec: process one global declaration.  A declaration
with no body goes through `parse_var` and yields a file-scope record on a
real name; a function definition goes through `parse_func` for its name and
then its body is scanned through the worklist, every nested record
attributed to that same function name. -/
def doDecl (C : Collab) (fuel : Nat) : GDecl → List VarRecord × List Call
  | (s, none) =>
      (match C.parseVar s with
       | some nt => [(none, nt.1, nt.2)]
       | none => [],
       [Call.parseVar s])
  | (s, some b) =>
      let fb := C.parseFunc s b
      let r := runPending C fb.1 fuel [b]
      (r.1, Call.parseFunc s b :: r.2)

/-- Modelled from the spec: the Variable Extraction Driver `iter_variables`
over the declarations of one file, producing the flat ordered record
sequence together with the collaborator call log. -/
def iter_variables (C : Collab) (fuel : Nat) :
    List GDecl → List VarRecord × List Call
  | [] => ([], [])
  | d :: rest =>
      let r := doDecl C fuel d
      let r2 := iter_variables C fuel rest
      (r.1 ++ r2.1, r.2 ++ r2.2)

/-- The records of the full pipeline on a file: comment stripping, the
Global Declaration Iterator, then the driver with the given collaborators. -/
def pipelineVars (C : Collab) (fuel : Nat) (lines : List String) : List VarRecord :=
  (iter_variables C fuel (iter_global_declarations lines)).1

/-- Leading keywords that can never start a variable declaration. -/
def reservedHead : List String :=
  ["return", "goto", "break", "continue", "if", "else", "for", "while",
   "switch", "case", "do", "typedef"]

/-- Modelled from the spec: `parse_var` — turn a simple statement into
`(name, type)`, or `none` (the `(None, None)` sentinel) for anything that
is not a variable declaration (control headers, bare calls, `return`,
assignments, ...).  Scenario A pins `parse_var "int spam;" = ("spam", "int")`
and Scenario B pins the sentinel on `ham = reason;` and `return _stop();`. -/
def parse_var (stmt : String) : Option (String × String) :=
  let t := trimChars stmt.data
  if lastIs ';' t then
    let core := trimChars t.dropLast
    if core.contains '(' || core.contains ')' || core.contains '=' ||
        core.contains ',' || core.contains '\x7b' || core.contains '\x7d' then
      none
    else
      match wordsAux [] core with
      | [] => none
      | [_] => none
      | w :: ws =>
          if reservedHead.contains w then none
          else
            let lastW := (ws.getLast?).getD ""
            let name := String.mk (lastW.data.dropWhile (fun ch => ch = '*'))
            let stars := String.mk (lastW.data.takeWhile (fun ch => ch = '*'))
            some (name, joinWords (w :: ws.dropLast) ++ stars)
  else none

end CGParse

namespace CFiles

/-- An error raised by the Python code of `files.py`. -/
inductive PyErr where
  | nameError (n : String)
  | valueError (m : String)
  | typeError (m : String)
deriving DecidableEq

/-- Is the error an invalid-argument error (Python `ValueError`)? -/
def isInvalidArgument : PyErr → Bool
  | PyErr.valueError _ => true
  | _ => false

/-- The observable behaviour of one of the generators of `files.py`: the
filenames yielded before completion, and the error raised afterwards if it
did not run to completion. -/
abbrev Gen := List String × Option PyErr

/-- The observable behaviour of an `os.walk`-shaped generator: the
`(parent, names)` pairs yielded (the directory component is unused by
`files.py`), and the error raised afterwards if any. -/
abbrev WalkGen := List (String × List String) × Option PyErr

/-- The `suffix` argument: `None`, a string, a tuple of strings, or some
other (truthy, non-string) value. -/
inductive Suffix where
  | none
  | str (s : String)
  | strs (ss : List String)
  | other
deriving DecidableEq

/-- Python truthiness of a suffix value. -/
def Suffix.truthy : Suffix → Bool
  | Suffix.none => false
  | Suffix.str s => !s.isEmpty
  | Suffix.strs ss => !ss.isEmpty
  | Suffix.other => true

/-- Is the suffix value a string? -/
def Suffix.isStr : Suffix → Bool
  | Suffix.str _ => true
  | _ => false

/-- The string carried by a string suffix (`""` otherwise). -/
def Suffix.getStr : Suffix → String
  | Suffix.str s => s
  | _ => ""

/-- `os.path.join` on one parent/name pair. -/
def joinPath (parent name : String) : String := parent ++ "/" ++ name

/-- Does the filename end with the given suffix string? -/
def strEndsWith (s sfx : String) : Bool :=
  sfx.data.isSuffixOf s.data

/-- From `files.py` lines 9-13: `_walk_tree` is a wrapper around `os.walk`
whose body iterates `_walk(root)`.  No module-level name `_walk` exists, so
the first step of the iteration raises `NameError` before anything is
yielded. -/
def _walk_tree (root : String) : WalkGen :=
  let _ := root
  ([], some (PyErr.nameError "_walk"))

/-- From `files.py` lines 16-32: `walk_tree(root, *, suffix=None,
walk=_walk_tree)`.  A truthy non-string suffix raises
`ValueError("suffix must be a string")` on first iteration; otherwise the
`(parent, names)` pairs of `walk(root)` are filtered by suffix and joined
into file paths. -/
def walk_tree (root : String) (suffix : Suffix)
    (walk : String → WalkGen) : Gen :=
  if suffix.truthy && !suffix.isStr then
    ([], some (PyErr.valueError "suffix must be a string"))
  else
    let w := walk root
    (w.1.flatMap (fun pn =>
        (pn.2.filter (fun name =>
            !suffix.truthy || strEndsWith name suffix.getStr)).map
          (joinPath pn.1)),
     w.2)

/-- From `files.py` lines 35-51: `glob_tree(root, *, suffix=None,
_glob=glob.iglob)`.  `suffix = suffix or ''` first, then a non-string value
raises `ValueError("suffix must be a string")`; otherwise the two glob
patterns are expanded through `_glob`. -/
def glob_tree (root : String) (suffix : Suffix)
    (glob : String → List String) : Gen :=
  let sfx := if suffix.truthy then suffix else Suffix.str ""
  if !sfx.isStr then ([], some (PyErr.valueError "suffix must be a string"))
  else
    (glob (root ++ "/*" ++ sfx.getStr) ++ glob (root ++ "/**/*" ++ sfx.getStr),
     none)

/-- The `root` argument of `iter_files`: a string, a (possibly non-string)
iterable of roots, or a non-iterable value. -/
inductive Root where
  | str (s : String)
  | iter (rs : List Root)
  | notIterable

/-- The `get_files` argument of `iter_files` (default `os.walk`). -/
inductive GetFiles where
  | osWalk
  | walkTreeF
  | globTreeF
  | globIglob
  | globGlob
  | custom (f : String → WalkGen)

/-- Is the `get_files` argument one of `glob.glob`, `glob.iglob`,
`glob_tree` (the test of `files.py` line 79)? -/
def GetFiles.globish : GetFiles → Bool
  | GetFiles.globTreeF | GetFiles.globIglob | GetFiles.globGlob => true
  | _ => false

/-- The walker substituted for `get_files` on the non-glob path
(`files.py` line 82): `_walk_tree` when `get_files` is `os.walk` or
`walk_tree`, the given function otherwise. -/
def GetFiles.walker : GetFiles → (String → WalkGen)
  | GetFiles.custom f => f
  | _ => _walk_tree

/-- A simplified model of `os.path.relpath(filename, parent)`: strip the
parent path prefix (sufficient here; no claim depends on its details). -/
def relPath (parent filename : String) : String :=
  if (parent ++ "/").data.isPrefixOf filename.data then
    String.mk (filename.data.drop (parent.data.length + 1))
  else filename

mutual

/-- From `files.py` lines 54-99: `iter_files(root, suffix=None,
relparent=None, *, get_files=os.walk, _glob=glob_tree, _walk=walk_tree)`.
A non-string root is treated as an iterable of roots, each processed in
turn (lines 70-76); a non-iterable one raises `TypeError` at the `for`.
Otherwise the proper walker is chosen (lines 78-83), a non-string truthy
suffix is handled by filtering the unfiltered walk by any of the suffixes
(lines 85-96), and `relparent` resolves each filename to a relative path
(lines 97-98). -/
def iter_files : Root → Suffix → Option String → GetFiles →
    (String → List String) → Gen
  | Root.notIterable, _, _, _, _ =>
      ([], some (PyErr.typeError "object is not iterable"))
  | Root.iter rs, suffix, relparent, get_files, glob =>
      iterFilesOver rs suffix relparent get_files glob
  | Root.str s, suffix, relparent, get_files, glob =>
      let getF : Suffix → Gen :=
        if get_files.globish then fun sfx => glob_tree s sfx glob
        else fun sfx => walk_tree s sfx get_files.walker
      let fs :=
        if suffix.truthy && !suffix.isStr then
          let w := getF Suffix.none
          (w.1.filter (fun f =>
              match suffix with
              | Suffix.strs ss => ss.any (strEndsWith f)
              | _ => true),
           w.2)
        else getF suffix
      (match relparent with
       | some p => fs.1.map (relPath p)
       | none => fs.1,
       fs.2)

/-- From `files.py` lines 72-75: the `yield from` loop over a non-string
iterable of roots; an error raised for one root ends the whole iteration. -/
def iterFilesOver : List Root → Suffix → Option String → GetFiles →
    (String → List String) → Gen
  | [], _, _, _, _ => ([], none)
  | r :: rest, suffix, relparent, get_files, glob =>
      let g := iter_files r suffix relparent get_files glob
      match g.2 with
      | some e => (g.1, some e)
      | none =>
          let g2 := iterFilesOver rest suffix relparent get_files glob
          (g.1 ++ g2.1, g2.2)

end

/-- From `files.py` lines 102-116: `iter_files_by_suffix(root, suffixes,
relparent=None, *, walk=walk_tree, _iter_files=iter_files)`.  A string
argument is wrapped into a one-element list; then for each suffix the body
evaluates the keyword argument `get_files=get_files` — but no module-level
name `get_files` exists, so with at least one suffix the first loop
iteration raises `NameError` before `_iter_files` is ever invoked and
before anything is yielded.  With zero suffixes the loop body never runs
and the generator is empty. -/
def iter_files_by_suffix (root : Root) (suffixes : Suffix) : Gen :=
  let _ := root
  match suffixes with
  | Suffix.none => ([], some (PyErr.typeError "object is not iterable"))
  | Suffix.other => ([], some (PyErr.typeError "object is not iterable"))
  | Suffix.str _ => ([], some (PyErr.nameError "get_files"))
  | Suffix.strs [] => ([], none)
  | Suffix.strs (_ :: _) => ([], some (PyErr.nameError "get_files"))

end CFiles

namespace CGParse

/-- Input of `IterGlobalDeclarationsTests.test_functions`, first case
(the leading empty line comes from `textwrap.dedent` + `splitlines`). -/
def func1Lines : List String :=
  ["", "void func1() \x7b", "    return;", "\x7d"]

/-- Expected statement text for the first `test_functions` case. -/
def func1Stmt : String := "void func1() \x7b\nreturn;\n\x7d"

/-- Input of `IterGlobalDeclarationsTests.test_functions`, second case
(multi-line signature). -/
def func2Lines : List String :=
  ["", "static unsigned int * _func1(", "    const char *arg1,",
   "    int *arg2", "    long long arg3", "    )", "\x7b",
   "    return _do_something(arg1, arg2, arg3);", "\x7d"]

/-- Expected statement text for the second `test_functions` case. -/
def func2Stmt : String :=
  "static unsigned int * _func1( const char *arg1, int *arg2 long long arg3 ) \x7b\nreturn _do_something(arg1, arg2, arg3);\n\x7d"

/-- Input of `IterGlobalDeclarationsTests.test_functions`, third case
(nested block, blank line inside the body). -/
def func3Lines : List String :=
  ["", "static PyObject *", "_func1(const char *arg1, PyObject *arg2)", "\x7b",
   "    static int initialized = 0;", "    if (!initialized) \x7b",
   "        initialized = 1;", "        _init(arg1);", "    \x7d", "",
   "    PyObject *result = _do_something(arg1, arg2);",
   "    Py_INCREF(result);", "    return result;", "\x7d"]

/-- Expected body text for the third `test_functions` case. -/
def func3Body : String :=
  "static int initialized = 0;\nif (!initialized) \x7b\ninitialized = 1;\n_init(arg1);\n\x7d\nPyObject *result = _do_something(arg1, arg2);\nPy_INCREF(result);\nreturn result;"

/-- The well-formed half of `IterGlobalDeclarationsTests.test_bogus`: up to
and including the line that opens the never-closed body of `_stop`. -/
def bogusPre : List String :=
  ["", "int spam;", "static const char const *eggs;", "",
   "PyObject * start(void) \x7b", "    static int initialized = 0;",
   "    if (initialized) \x7b", "        initialized = 1;",
   "        init();", "    \x7d", "    return _start();", "\x7d", "",
   "char* ham;", "", "static int _stop(void) \x7b"]

/-- The malformed tail of `test_bogus`: the body of `_stop` never closes,
and swallows the whole definition of `stop`. -/
def bogusPost : List String :=
  ["// missing closing bracket", "", "static int stop(char *reason) \x7b",
   "    ham = reason;", "    return _stop();", "\x7d", ""]

/-- The declaration `test_bogus` expects: only `start`, with `stop` and
`_stop` absent. -/
def bogusExpected : GDecl :=
  ("PyObject * start(void) \x7b\nstatic int initialized = 0;\nif (initialized) \x7b\ninitialized = 1;\ninit();\n\x7d\nreturn _start();\n\x7d",
   some "static int initialized = 0;\nif (initialized) \x7b\ninitialized = 1;\ninit();\n\x7d\nreturn _start();")

/-- The comment-only inputs of
`IterGlobalDeclarationsTests.test_ignore_comments`. -/
def commentOnlyInputs : List (List String) :=
  [["// msg"],
   ["// int stmt;"],
   ["    // ...    "],
   ["// /*"],
   ["/* int stmt; */"],
   ["", "             /**", "              * ...", "              * int stmt;",
    "              */", "             "]]

/-- The scripted collaborators of `IterVariablesTests.test_typical`
(each stand-in keyed by the statement text it receives, reproducing the
queued canned results of the unit test). -/
def typicalCollab : Collab where
  iterLocal := fun ls =>
    if ls == ["<body 1>"] then
      [("<lines 5>", none),
       ("<lines 6>", some [("<header 1>", "<block 1>")]),
       ("<lines 8>", none)]
    else if ls == ["<block 1>"] then [("<lines 7>", none)]
    else []
  parseFunc := fun s _ =>
    if s == "<lines 4>" then ("func1", "<sig 1>", "<body 1>")
    else ("?", "?", "?")
  parseVar := fun s =>
    if s == "<lines 1>" then some ("var1", "<vartype 1>")
    else if s == "<lines 3>" then some ("var2", "<vartype 2>")
    else if s == "<lines 5>" then some ("var3", "<vartype 3>")
    else if s == "if (" then some ("var2", "<vartype 2b>")
    else if s == "<simple>" then some ("var4", "<vartype 4>")
    else if s == "<lines 9>" then some ("var5", "<vartype 5>")
    else none
  parseCompound := fun s _ =>
    if s == "<lines 6>" then ([["if (", "<simple>", ")"]], ["<block 1>"])
    else ([], [])

/-- The global declarations handed to the driver in `test_typical`. -/
def typicalDecls : List GDecl :=
  [("<lines 1>", none), ("<lines 2>", none), ("<lines 3>", none),
   ("<lines 4>", some "<body 1>"), ("<lines 9>", none)]

/-- The record sequence `test_typical` expects. -/
def typicalRecords : List VarRecord :=
  [(none, "var1", "<vartype 1>"), (none, "var2", "<vartype 2>"),
   (some "func1", "var3", "<vartype 3>"), (some "func1", "var2", "<vartype 2b>"),
   (some "func1", "var4", "<vartype 4>"), (none, "var5", "<vartype 5>")]

/-- The collaborator call sequence `test_typical` expects (after the
initial source-line and global-declaration calls). -/
def typicalCalls : List Call :=
  [Call.parseVar "<lines 1>", Call.parseVar "<lines 2>",
   Call.parseVar "<lines 3>", Call.parseFunc "<lines 4>" "<body 1>",
   Call.iterLocal ["<body 1>"], Call.parseVar "<lines 5>",
   Call.parseCompound "<lines 6>" [("<header 1>", "<block 1>")],
   Call.parseVar "if (", Call.parseVar "<simple>", Call.parseVar ")",
   Call.parseVar "<lines 8>", Call.iterLocal ["<block 1>"],
   Call.parseVar "<lines 7>", Call.parseVar "<lines 9>"]

/-- Collaborators built on the modelled real `parse_var`, with no local
statements anywhere (sufficient for declaration-only scenarios). -/
def varOnlyCollab : Collab where
  iterLocal := fun _ => []
  parseFunc := fun _ _ => ("", "", "")
  parseVar := parse_var
  parseCompound := fun _ _ => ([], [])

/-- Collaborators for Scenario D (name collision): the real modelled
`parse_var`, and a function `stop` whose body holds a second declaration
of `var2`. -/
def collisionCollab : Collab where
  iterLocal := fun ls =>
    if ls == ["<stop body>"] then [("int var2;", none)] else []
  parseFunc := fun s _ =>
    if s == "<stop lines>" then ("stop", "<stop sig>", "<stop body>")
    else ("?", "?", "?")
  parseVar := parse_var
  parseCompound := fun _ _ => ([], [])

/-- The global declarations of Scenario D: `var2` at file scope, then the
function `stop` redeclaring `var2` in its body. -/
def collisionDecls : List GDecl :=
  [("int var2;", none), ("<stop lines>", some "<stop body>")]

/-- A one-function, one-statement collaborator set used to instantiate the
attribution theorem at a concrete input. -/
def tinyCollab : Collab where
  iterLocal := fun _ => [("s0", none)]
  parseFunc := fun _ _ => ("f0", "sig0", "b0")
  parseVar := fun _ => some ("x0", "t0")
  parseCompound := fun _ _ => ([], [])

/-- Is this character sequence plain code as far as the comment stripper is
concerned: it contains no `//` and no `/*`, and does not end with a
dangling `/` (which would fuse with an appended comment opener)? -/
def plainCode : List Char → Bool
  | [] => true
  | [c] => if c = '/' then false else true
  | c :: c2 :: rest =>
      if c = '/' ∧ (c2 = '/' ∨ c2 = '*') then false else plainCode (c2 :: rest)

/-- Is this character sequence safe as the interior of a block comment: it
contains no `*/` and does not end with a dangling `*` (which would fuse
with the appended closer)? -/
def plainBlock : List Char → Bool
  | [] => true
  | [c] => if c = '*' then false else true
  | c :: c2 :: rest =>
      if c = '*' ∧ c2 = '/' then false else plainBlock (c2 :: rest)

/-- Collaborators whose single local statement is a compound `if` with one
header decomposed into three fragments, used to instantiate the
compound-statement dispatch theorem at a concrete input. -/
def compoundCollab : Collab where
  iterLocal := fun ls =>
    if ls == ["<body>"] then [("<if stmt>", some [("<hdr>", "<blk>")])]
    else if ls == ["<blk>"] then [("int y;", none)] else []
  parseFunc := fun _ _ => ("fn0", "sig", "<body>")
  parseVar := fun s =>
    if s == "<cond>" then some ("x", "int") else
    if s == "int y;" then some ("y", "int") else none
  parseCompound := fun s _ =>
    if s == "<if stmt>" then ([["if (", "<cond>", ")"]], ["<blk>"])
    else ([], [])

/-- The body-lines invariant of the scan state: every body line collected so
far is already whitespace-trimmed and non-blank. -/
def blTrimmed : GSt → Prop
  | GSt.top _ => True
  | GSt.body _ _ bl => ∀ l ∈ bl, strip l = l ∧ l ≠ ""

end CGParse

namespace CGParse

theorem stringMkData (s : String) : String.mk s.data = s := by
  cases s
  rfl

theorem ne_empty_of_not_isEmpty (s : String) (h : ¬ s.data.isEmpty = true) :
    s ≠ "" := by
  intro he
  subst he
  simp at h

theorem ltrim_ltrim (cs : List Char) : ltrim (ltrim cs) = ltrim cs := by
  induction cs with
  | nil => rfl
  | cons c rest ih =>
    by_cases h : c.isWhitespace
    · simp [ltrim, h, ih]
    · simp [ltrim, h]

theorem rtrim_rtrim (cs : List Char) : rtrim (rtrim cs) = rtrim cs := by
  induction cs with
  | nil => rfl
  | cons c rest ih =>
    cases hr : rtrim rest with
    | nil =>
      by_cases h : c.isWhitespace
      · simp [rtrim, hr, h]
      · simp [rtrim, hr, h]
    | cons d ds =>
      have h2 : rtrim (d :: ds) = d :: ds := by
        rw [← hr]
        exact ih
      have h3 : rtrim (c :: rest) = c :: d :: ds := by
        simp [rtrim, hr]
      rw [h3, rtrim, h2]
      simp

theorem rtrim_ltrim (cs : List Char) : rtrim (ltrim cs) = ltrim (rtrim cs) := by
  induction cs with
  | nil => rfl
  | cons c rest ih =>
    by_cases hw : c.isWhitespace
    · cases hr : rtrim rest with
      | nil => simp [ltrim, rtrim, hw, hr, ih]
      | cons d ds => simp [ltrim, rtrim, hw, hr, ih]
    · cases hr : rtrim rest with
      | nil => simp [ltrim, rtrim, hw, hr, ih]
      | cons d ds => simp [ltrim, rtrim, hw, hr, ih]

theorem trimChars_trimChars (cs : List Char) :
    trimChars (trimChars cs) = trimChars cs := by
  unfold trimChars
  rw [rtrim_ltrim (rtrim cs), rtrim_rtrim, ltrim_ltrim]

theorem strip_strip (s : String) : strip (strip s) = strip s :=
  congrArg String.mk (trimChars_trimChars s.data)

theorem stripCommentsAux_plain :
    ∀ (cs : List Char), plainCode cs = true → ∀ (tail : List Char),
      stripCommentsAux false (cs ++ tail) =
        (cs ++ (stripCommentsAux false tail).1, (stripCommentsAux false tail).2) := by
  intro cs
  induction cs with
  | nil => intro _ tail; simp
  | cons c rest ih =>
    intro h tail
    cases rest with
    | nil =>
      have hc : ¬ c = '/' := by
        intro hcc
        simp [plainCode, hcc] at h
      cases tail with
      | nil => simp [stripCommentsAux]
      | cons t1 ts =>
        have h1 : ¬ (c = '/' ∧ t1 = '/') := fun hx => hc hx.1
        have h2 : ¬ (c = '/' ∧ t1 = '*') := fun hx => hc hx.1
        simp [stripCommentsAux, h1, h2]
    | cons c2 rest2 =>
      by_cases hcc : c = '/' ∧ (c2 = '/' ∨ c2 = '*')
      · simp [plainCode, hcc] at h
      · simp only [plainCode, if_neg hcc] at h
        have h1 : ¬ (c = '/' ∧ c2 = '/') := fun hx => hcc ⟨hx.1, Or.inl hx.2⟩
        have h2 : ¬ (c = '/' ∧ c2 = '*') := fun hx => hcc ⟨hx.1, Or.inr hx.2⟩
        have ih2 := ih h tail
        simp only [List.cons_append] at ih2 ⊢
        simp only [stripCommentsAux, if_neg h1, if_neg h2]
        rw [ih2]

theorem stripCommentsAux_block :
    ∀ (cs : List Char), plainBlock cs = true → ∀ (tail : List Char),
      stripCommentsAux true (cs ++ ('*' :: '/' :: tail)) =
        stripCommentsAux false tail := by
  intro cs
  induction cs with
  | nil => intro _ tail; rfl
  | cons c rest ih =>
    intro h tail
    cases rest with
    | nil =>
      have h1 : ¬ (c = '*' ∧ ('*' : Char) = '/') := by
        intro hx
        exact absurd hx.2 (by decide)
      simp [stripCommentsAux, h1]
    | cons c2 rest2 =>
      by_cases hcc : c = '*' ∧ c2 = '/'
      · simp [plainBlock, hcc] at h
      · simp only [plainBlock, if_neg hcc] at h
        have ih2 := ih h tail
        simp only [List.cons_append] at ih2 ⊢
        simp only [stripCommentsAux, if_neg hcc]
        rw [ih2]

theorem stripLine_plain (s : String) (h : plainCode s.data = true) :
    stripLine false s = (s, false) := by
  unfold stripLine
  have h2 := stripCommentsAux_plain s.data h []
  simp only [List.append_nil] at h2
  rw [h2]
  simp [stringMkData, stripCommentsAux]

theorem stripLine_lineComment (code c : String) (h : plainCode code.data = true) :
    stripLine false (code ++ "//" ++ c) = (code, false) := by
  unfold stripLine
  have hd : (code ++ "//" ++ c).data = code.data ++ ('/' :: '/' :: c.data) := by
    have h1 : ("//" : String).data = ['/', '/'] := rfl
    simp [String.data_append, h1]
  rw [hd, stripCommentsAux_plain code.data h]
  simp [stringMkData, stripCommentsAux]

theorem stripLine_blockComment (code c : String) (h : plainCode code.data = true)
    (hb : plainBlock c.data = true) :
    stripLine false (code ++ "/*" ++ c ++ "*/") = (code, false) := by
  unfold stripLine
  have hd : (code ++ "/*" ++ c ++ "*/").data =
      code.data ++ ('/' :: '*' :: (c.data ++ ('*' :: '/' :: []))) := by
    have h1 : ("/*" : String).data = ['/', '*'] := rfl
    have h2 : ("*/" : String).data = ['*', '/'] := rfl
    simp [String.data_append, h1, h2]
  rw [hd, stripCommentsAux_plain code.data h]
  have hX : stripCommentsAux false ('/' :: '*' :: (c.data ++ ('*' :: '/' :: []))) =
      stripCommentsAux true (c.data ++ ('*' :: '/' :: [])) := rfl
  rw [hX, stripCommentsAux_block c.data hb []]
  simp [stringMkData, stripCommentsAux]

theorem normalize_append :
    ∀ (xs ys : List String) (st : Bool),
      normalize st (xs ++ ys) =
        normalize st xs ++ normalize (normStateAfter st xs) ys := by
  intro xs
  induction xs with
  | nil => intro ys st; rfl
  | cons x rest ih =>
    intro ys st
    simp only [List.cons_append, normalize, normStateAfter, List.foldl_cons,
      List.append_eq]
    rw [ih]
    rfl

theorem iterGlobalAux_append :
    ∀ (xs ys : List String) (st : GSt),
      iterGlobalAux st (xs ++ ys) =
        iterGlobalAux st xs ++ iterGlobalAux (stateAfter st xs) ys := by
  intro xs
  induction xs with
  | nil => intro ys st; rfl
  | cons x rest ih =>
    intro ys st
    simp only [List.cons_append, iterGlobalAux, stateAfter, List.foldl_cons,
      List.append_eq]
    rw [ih]
    simp [stateAfter]

theorem staysInBody_inBody (st : GSt) (ls : List String)
    (h : staysInBody st ls = true) : inBody st = true := by
  cases ls with
  | nil => exact h
  | cons l rest =>
    simp only [staysInBody, Bool.and_eq_true] at h
    exact h.1

theorem stepLine_stay_body (sig : String) (d : Nat) (bl : List String) (l : String)
    (h : inBody (stepLine (GSt.body sig d bl) l).1 = true) :
    (stepLine (GSt.body sig d bl) l).2 = [] := by
  by_cases he : (strip l).data.isEmpty
  · simp [stepLine, he]
  · cases hs : scanLineDepth d (strip l).data with
    | none => simp [stepLine, he, hs, inBody] at h
    | some d2 => simp [stepLine, he, hs]

theorem staysInBody_no_emit :
    ∀ (ls : List String) (st : GSt), staysInBody st ls = true →
      iterGlobalAux st ls = [] := by
  intro ls
  induction ls with
  | nil => intro st _; rfl
  | cons l rest ih =>
    intro st h
    simp only [staysInBody, Bool.and_eq_true] at h
    obtain ⟨h1, h2⟩ := h
    cases st with
    | top a => simp [inBody] at h1
    | body sig d bl =>
      have hb2 : inBody (stepLine (GSt.body sig d bl) l).1 = true :=
        staysInBody_inBody _ rest h2
      have hemit := stepLine_stay_body sig d bl l hb2
      simp [iterGlobalAux, hemit, ih _ h2]

theorem stepLine_shape (st : GSt) (l : String) (d : GDecl)
    (h : d ∈ (stepLine st l).2) :
    ∃ sig bl, d = (mkStmt sig bl, some (String.intercalate "\n" bl)) := by
  cases st with
  | top acc =>
    by_cases he : (strip l).data.isEmpty
    · simp [stepLine, he] at h
    · by_cases hsemi : lastIs ';' (strip l).data
      · simp [stepLine, he, hsemi] at h
      · by_cases hbr : '\x7b' ∈ (strip l).data
        · cases hs : scanLineDepth 0 (strip l).data with
          | none =>
              simp [stepLine, he, hsemi, hbr, hs] at h
              exact ⟨joinWords (acc ++ words (strip l)), [],
                h.trans (by rfl)⟩
          | some d2 => simp [stepLine, he, hsemi, hbr, hs] at h
        · simp [stepLine, he, hsemi, hbr] at h
  | body sig0 d0 bl =>
    by_cases he : (strip l).data.isEmpty
    · simp [stepLine, he] at h
    · cases hs : scanLineDepth d0 (strip l).data with
      | none =>
          simp [stepLine, he, hs] at h
          exact ⟨sig0, bl, h.trans (by rfl)⟩
      | some d2 => simp [stepLine, he, hs] at h

theorem iterGlobalAux_shape :
    ∀ (ls : List String) (st : GSt) (d : GDecl), d ∈ iterGlobalAux st ls →
      ∃ sig bl, d = (mkStmt sig bl, some (String.intercalate "\n" bl)) := by
  intro ls
  induction ls with
  | nil => intro st d h; simp [iterGlobalAux] at h
  | cons l rest ih =>
    intro st d h
    simp only [iterGlobalAux, List.mem_append] at h
    rcases h with h | h
    · exact stepLine_shape st l d h
    · exact ih _ d h

theorem stepLine_blTrimmed (st : GSt) (l : String) (h : blTrimmed st) :
    blTrimmed (stepLine st l).1 := by
  cases st with
  | top acc =>
    by_cases he : (strip l).data.isEmpty
    · simp [stepLine, he, blTrimmed]
    · by_cases hsemi : lastIs ';' (strip l).data
      · simp [stepLine, he, hsemi, blTrimmed]
      · by_cases hbr : '\x7b' ∈ (strip l).data
        · cases hs : scanLineDepth 0 (strip l).data with
          | none => simp [stepLine, he, hsemi, hbr, hs, blTrimmed]
          | some d2 => simp [stepLine, he, hsemi, hbr, hs, blTrimmed]
        · simp [stepLine, he, hsemi, hbr, blTrimmed]
  | body sig d bl =>
    by_cases he : (strip l).data.isEmpty
    · simpa [stepLine, he, blTrimmed] using h
    · cases hs : scanLineDepth d (strip l).data with
      | none => simp [stepLine, he, hs, blTrimmed]
      | some d2 =>
        have hres : (stepLine (GSt.body sig d bl) l).1 =
            GSt.body sig d2 (bl ++ [strip l]) := by
          simp [stepLine, he, hs]
        rw [hres]
        intro x hx
        rcases List.mem_append.mp hx with hx2 | hx2
        · exact h x hx2
        · have hx3 : x = strip l := by simpa using hx2
          subst hx3
          exact ⟨strip_strip l, ne_empty_of_not_isEmpty (strip l) he⟩

theorem stepLine_emit_body (st : GSt) (l : String) (d : GDecl)
    (hst : blTrimmed st) (h : d ∈ (stepLine st l).2) :
    ∃ bl, d.2 = some (String.intercalate "\n" bl) ∧
      ∀ x ∈ bl, strip x = x ∧ x ≠ "" := by
  cases st with
  | top acc =>
    by_cases he : (strip l).data.isEmpty
    · simp [stepLine, he] at h
    · by_cases hsemi : lastIs ';' (strip l).data
      · simp [stepLine, he, hsemi] at h
      · by_cases hbr : '\x7b' ∈ (strip l).data
        · cases hs : scanLineDepth 0 (strip l).data with
          | none =>
              simp [stepLine, he, hsemi, hbr, hs] at h
              exact ⟨[], by rw [h]; rfl, by simp⟩
          | some d2 => simp [stepLine, he, hsemi, hbr, hs] at h
        · simp [stepLine, he, hsemi, hbr] at h
  | body sig0 d0 bl =>
    by_cases he : (strip l).data.isEmpty
    · simp [stepLine, he] at h
    · cases hs : scanLineDepth d0 (strip l).data with
      | none =>
          simp [stepLine, he, hs] at h
          exact ⟨bl, by rw [h], hst⟩
      | some d2 => simp [stepLine, he, hs] at h

theorem iterGlobalAux_body_trimmed :
    ∀ (ls : List String) (st : GSt) (d : GDecl), blTrimmed st →
      d ∈ iterGlobalAux st ls →
      ∃ bl, d.2 = some (String.intercalate "\n" bl) ∧
        ∀ x ∈ bl, strip x = x ∧ x ≠ "" := by
  intro ls
  induction ls with
  | nil => intro st d _ h; simp [iterGlobalAux] at h
  | cons l rest ih =>
    intro st d hst h
    simp only [iterGlobalAux, List.mem_append] at h
    rcases h with h | h
    · exact stepLine_emit_body st l d hst h
    · exact ih _ d (stepLine_blTrimmed st l hst) h

theorem doFrags_enclosing (C : Collab) (fn : String) :
    ∀ (frags : List String) (r : VarRecord),
      r ∈ (doFrags C fn frags).1 → r.1 = some fn := by
  intro frags
  induction frags with
  | nil => intro r h; simp [doFrags] at h
  | cons f rest ih =>
    intro r h
    cases hpv : C.parseVar f with
    | none =>
        simp [doFrags, hpv] at h
        exact ih r h
    | some nt =>
        simp [doFrags, hpv] at h
        rcases h with h | h
        · simp [h]
        · exact ih r h

theorem doStmts_enclosing (C : Collab) (fn : String) :
    ∀ (stmts : List LocalStmt) (r : VarRecord),
      r ∈ (doStmts C fn stmts).1 → r.1 = some fn := by
  intro stmts
  induction stmts with
  | nil => intro r h; simp [doStmts] at h
  | cons s rest ih =>
    intro r h
    rcases s with ⟨s, ob⟩
    cases ob with
    | none =>
        cases hpv : C.parseVar s with
        | none =>
            simp [doStmts, hpv] at h
            exact ih r h
        | some nt =>
            simp [doStmts, hpv] at h
            rcases h with h | h
            · simp [h]
            · exact ih r h
    | some blocks =>
        simp only [doStmts, List.mem_append] at h
        rcases h with h | h
        · exact doFrags_enclosing C fn _ r h
        · exact ih r h

theorem runPending_enclosing (C : Collab) (fn : String) :
    ∀ (fuel : Nat) (pending : List String) (r : VarRecord),
      r ∈ (runPending C fn fuel pending).1 → r.1 = some fn := by
  intro fuel
  induction fuel with
  | zero => intro pending r h; simp [runPending] at h
  | succ fuel ih =>
    intro pending r h
    cases pending with
    | nil => simp [runPending] at h
    | cons b rest =>
        simp only [runPending, List.mem_append] at h
        rcases h with h | h
        · exact doStmts_enclosing C fn _ r h
        · exact ih _ r h

theorem doFrags_calls_records (C : Collab) (fn : String) :
    ∀ (frags : List String),
      (doFrags C fn frags).2 = frags.map Call.parseVar ∧
      (doFrags C fn frags).1 = frags.filterMap
        (fun f => (C.parseVar f).map (fun nt => (some fn, nt.1, nt.2))) := by
  intro frags
  induction frags with
  | nil => simp [doFrags]
  | cons f rest ih =>
    cases hpv : C.parseVar f with
    | none => simp [doFrags, hpv, ih.1, ih.2]
    | some nt => simp [doFrags, hpv, ih.1, ih.2]

/-- C1, counterexample: for the single-line input `int spam;` the Global
Declaration Iterator yields no Declaration at all — not the claimed single
Declaration `("int spam;", None)` — and the full pipeline over the modelled
`parse_var` yields no VariableRecord. -/
theorem c1_global_simple_statement_counterexample :
    iter_global_declarations ["int spam;"] = [] ∧
    iter_global_declarations ["int spam;"] ≠
      [("int spam;", (none : Option String))] ∧
    pipelineVars varOnlyCollab 1 ["int spam;"] = [] :=
  ⟨rfl, by decide, rfl⟩

/-- C1, amended: the Global Declaration Iterator consumes a top-level span
ending with `;` at depth 0 without emitting it (only function definitions
are emitted; the simple-statement emission the claim describes is the
behavior the repo's own test marks as an expected failure), so the full
pipeline on `int spam;` yields nothing; the driver itself, when handed the
Declaration `("int spam;", None)` directly, does call `parse_var` (which
returns `("spam", "int")`) and yields the single record
`(None, "spam", "int")`. -/
theorem c1_global_simple_statement_amended :
    iter_global_declarations ["int spam;"] = [] ∧
    (∀ (C : Collab) (fuel : Nat), pipelineVars C fuel ["int spam;"] = []) ∧
    parse_var "int spam;" = some ("spam", "int") ∧
    iter_variables varOnlyCollab 1 [("int spam;", none)] =
      ([(none, "spam", "int")], [Call.parseVar "int spam;"]) :=
  ⟨rfl, fun _ _ => rfl, rfl, rfl⟩

/-- C2: every record produced while scanning a function's pending blocks is
attributed to that same enclosing function name, and on the scripted
scenario of `IterVariablesTests.test_typical` the driver reproduces the
expected records and the expected depth-first, top-to-bottom collaborator
call order exactly (all statements of a scope before its nested blocks,
nested blocks in encounter order, all before the next top-level
declaration). -/
theorem c2_iter_variables_order :
    (∀ (C : Collab) (fuel : Nat) (fn : String) (pending : List String)
        (r : VarRecord),
        r ∈ (runPending C fn fuel pending).1 → r.1 = some fn) ∧
    iter_variables typicalCollab 4 typicalDecls = (typicalRecords, typicalCalls) :=
  ⟨fun C fuel fn pending r h => runPending_enclosing C fn fuel pending r h, rfl⟩

/-- C2, witness: the attribution part applied at a concrete one-function
scenario. -/
theorem c2_iter_variables_order_witness :
    ((some "f0", "x0", "t0") : VarRecord) ∈
      (runPending tinyCollab "f0" 1 ["b0"]).1 ∧
    ((some "f0", "x0", "t0") : VarRecord).1 = some "f0" :=
  ⟨by decide, c2_iter_variables_order.1 tinyCollab 1 "f0" ["b0"] _ (by decide)⟩

/-- C3: when the scan is inside a function body after some prefix of the
input and the remaining lines never close that body, the Global Declaration
Iterator emits exactly what it emitted for the prefix — nothing for the
unterminated function, nothing for any text after the failure point — and
on the `test_bogus` input it emits exactly the one well-formed `start`
declaration; the iterator is a total function, so no exception is raised. -/
theorem c3_unterminated_body :
    (∀ (pre post : List String),
        staysInBody (stateAfter (GSt.top []) (normalize false pre))
            (normalize (normStateAfter false pre) post) = true →
        iter_global_declarations (pre ++ post) = iter_global_declarations pre) ∧
    iter_global_declarations (bogusPre ++ bogusPost) = [bogusExpected] ∧
    iter_global_declarations bogusPre = [bogusExpected] := by
  refine ⟨?_, rfl, rfl⟩
  intro pre post h
  unfold iter_global_declarations
  rw [normalize_append, iterGlobalAux_append, staysInBody_no_emit _ _ h]
  simp

/-- C3, witness: the unterminated-tail condition holds on the `test_bogus`
input, and the theorem collapses the bogus input to its well-formed
prefix. -/
theorem c3_unterminated_body_witness :
    staysInBody (stateAfter (GSt.top []) (normalize false bogusPre))
        (normalize (normStateAfter false bogusPre) bogusPost) = true ∧
    iter_global_declarations (bogusPre ++ bogusPost) =
      iter_global_declarations bogusPre :=
  ⟨by decide, c3_unterminated_body.1 bogusPre bogusPost (by decide)⟩

/-- C4: when the Local Statement Iterator reports a single compound
statement, the driver calls `parse_compound` once, then calls `parse_var`
exactly once per decomposed header fragment in order, yields a record
(attributed to the enclosing function) exactly for the fragments on which
`parse_var` reports a real name, and queues each raw block for
local-statement scanning under the same function name; `doFrags` performs
one `parse_var` call per fragment in order and keeps exactly the real
names. -/
theorem c4_compound_header_dispatch :
    (∀ (C : Collab) (fuel : Nat) (fn b s : String)
        (blocks : List (String × String)),
        C.iterLocal [b] = [(s, some blocks)] →
        runPending C fn (fuel + 1) [b] =
          ((doFrags C fn (C.parseCompound s blocks).1.flatten).1 ++
             (runPending C fn fuel (C.parseCompound s blocks).2).1,
           Call.iterLocal [b] :: Call.parseCompound s blocks ::
             ((doFrags C fn (C.parseCompound s blocks).1.flatten).2 ++
                (runPending C fn fuel (C.parseCompound s blocks).2).2))) ∧
    (∀ (C : Collab) (fn : String) (frags : List String),
        (doFrags C fn frags).2 = frags.map Call.parseVar ∧
        (doFrags C fn frags).1 = frags.filterMap
          (fun f => (C.parseVar f).map (fun nt => (some fn, nt.1, nt.2)))) := by
  constructor
  · intro C fuel fn b s blocks hIter
    simp [runPending, hIter, doStmts]
  · exact fun C fn frags => doFrags_calls_records C fn frags

/-- C4, witness: the dispatch theorem applied to a concrete `if` compound
with three header fragments (`if (`, a condition declaring `x`, `)`): one
`parse_compound` call, three `parse_var` calls in order, one record for the
condition fragment, and the raw block queued and scanned under the same
function name. -/
theorem c4_compound_header_dispatch_witness :
    compoundCollab.iterLocal ["<body>"] =
      [("<if stmt>", some [("<hdr>", "<blk>")])] ∧
    runPending compoundCollab "fn0" 2 ["<body>"] =
      ([(some "fn0", "x", "int"), (some "fn0", "y", "int")],
       [Call.iterLocal ["<body>"],
        Call.parseCompound "<if stmt>" [("<hdr>", "<blk>")],
        Call.parseVar "if (", Call.parseVar "<cond>", Call.parseVar ")",
        Call.iterLocal ["<blk>"], Call.parseVar "int y;"]) :=
  ⟨rfl,
   (c4_compound_header_dispatch.1 compoundCollab 1 "fn0" "<body>" "<if stmt>"
       [("<hdr>", "<blk>")] rfl).trans (by rfl)⟩

/-- C5, counterexample: on the first `test_functions` input the emitted
statement text is the whole normalized function text (signature including
the opening brace, body lines, closing brace), not the text accumulated
before the body with the opening brace excluded. -/
theorem c5_statement_text_counterexample :
    iter_global_declarations func1Lines = [(func1Stmt, some "return;")] ∧
    func1Stmt ≠ "void func1()" :=
  ⟨rfl, by decide⟩

set_option maxRecDepth 16384 in
/-- C5, amended: every Declaration the Global Declaration Iterator emits is
a function whose statement text is the whitespace-collapsed signature words
(including the opening brace) followed by the normalized body lines and the
closing brace, newline-separated — exactly `mkStmt sig bl` paired with the
newline-join of the body lines — as the three `test_functions` cases pin
concretely. -/
theorem c5_statement_text_amended :
    (∀ (lines : List String) (d : GDecl), d ∈ iter_global_declarations lines →
        ∃ sig bl, d = (mkStmt sig bl, some (String.intercalate "\n" bl))) ∧
    iter_global_declarations func1Lines = [(func1Stmt, some "return;")] ∧
    iter_global_declarations func2Lines =
      [(func2Stmt, some "return _do_something(arg1, arg2, arg3);")] ∧
    iter_global_declarations func3Lines =
      [("static PyObject * _func1(const char *arg1, PyObject *arg2) \x7b\n" ++
          func3Body ++ "\n\x7d", some func3Body)] :=
  ⟨fun lines d h => iterGlobalAux_shape (normalize false lines) (GSt.top []) d h,
   rfl, rfl, rfl⟩

/-- C5, witness: the shape part applied to the declaration emitted for the
first `test_functions` input. -/
theorem c5_statement_text_amended_witness :
    ((func1Stmt, some "return;") : GDecl) ∈ iter_global_declarations func1Lines ∧
    ∃ sig bl, ((func1Stmt, some "return;") : GDecl) =
      (mkStmt sig bl, some (String.intercalate "\n" bl)) :=
  ⟨by decide, c5_statement_text_amended.1 func1Lines _ (by decide)⟩

/-- C6, counterexample: the body of the emitted Declaration is not the list
of source lines preserved exactly — on the first `test_functions` input the
single body line `    return;` is emitted as the trimmed string `return;`
(and the body field is one newline-joined string, not a list). -/
theorem c6_function_body_counterexample :
    iter_global_declarations func1Lines = [(func1Stmt, some "return;")] ∧
    (some "return;" : Option String) ≠ some "    return;" :=
  ⟨rfl, by decide⟩

set_option maxRecDepth 16384 in
/-- C6, amended: the body of every emitted Declaration is the newline-join
of the comment-stripped, whitespace-trimmed, non-blank lines strictly
between the function's opening and matching closing brace, as the
`test_functions` cases pin concretely (case three also drops the blank
line inside the body). -/
theorem c6_function_body_amended :
    (∀ (lines : List String) (d : GDecl), d ∈ iter_global_declarations lines →
        ∃ bl, d.2 = some (String.intercalate "\n" bl) ∧
          ∀ x ∈ bl, strip x = x ∧ x ≠ "") ∧
    iter_global_declarations func1Lines = [(func1Stmt, some "return;")] ∧
    iter_global_declarations func3Lines =
      [("static PyObject * _func1(const char *arg1, PyObject *arg2) \x7b\n" ++
          func3Body ++ "\n\x7d", some func3Body)] :=
  ⟨fun lines d h =>
      iterGlobalAux_body_trimmed (normalize false lines) (GSt.top []) d
        trivial h,
   rfl, rfl⟩

/-- C6, witness: the trimmed-body part applied to the declaration emitted
for the first `test_functions` input. -/
theorem c6_function_body_amended_witness :
    ((func1Stmt, some "return;") : GDecl) ∈ iter_global_declarations func1Lines ∧
    ∃ bl, ((func1Stmt, some "return;") : GDecl).2 =
        some (String.intercalate "\n" bl) ∧
      ∀ x ∈ bl, strip x = x ∧ x ≠ "" :=
  ⟨by decide, c6_function_body_amended.1 func1Lines _ (by decide)⟩

/-- C7: a line that is entirely a comment (line comment or block comment,
including multi-line block comments) produces no declaration and no
record — concretely for all `test_ignore_comments` inputs — and a line of
comment-free code followed by a trailing `//` or `/* ... */` comment
produces exactly the same declarations and records as the same line with
the comment deleted. -/
theorem c7_comment_round_trip :
    (∀ ls ∈ commentOnlyInputs, iter_global_declarations ls = [] ∧
        ∀ (C : Collab) (fuel : Nat), pipelineVars C fuel ls = []) ∧
    (∀ (code c : String), plainCode code.data = true →
        iter_global_declarations [code ++ "//" ++ c] =
          iter_global_declarations [code] ∧
        ∀ (C : Collab) (fuel : Nat),
          pipelineVars C fuel [code ++ "//" ++ c] =
            pipelineVars C fuel [code]) ∧
    (∀ (code c : String), plainCode code.data = true →
        plainBlock c.data = true →
        iter_global_declarations [code ++ "/*" ++ c ++ "*/"] =
          iter_global_declarations [code] ∧
        ∀ (C : Collab) (fuel : Nat),
          pipelineVars C fuel [code ++ "/*" ++ c ++ "*/"] =
            pipelineVars C fuel [code]) := by
  refine ⟨?_, ?_, ?_⟩
  · intro ls h
    simp only [commentOnlyInputs, List.mem_cons, List.mem_singleton,
      List.not_mem_nil, or_false] at h
    rcases h with rfl | rfl | rfl | rfl | rfl | rfl <;>
      exact ⟨rfl, fun _ _ => rfl⟩
  · intro code c h
    have hn : normalize false [code ++ "//" ++ c] = normalize false [code] := by
      simp [normalize, stripLine_lineComment code c h, stripLine_plain code h]
    exact ⟨by unfold iter_global_declarations; rw [hn],
           fun C fuel => by
             unfold pipelineVars iter_global_declarations; rw [hn]⟩
  · intro code c h hb
    have hn : normalize false [code ++ "/*" ++ c ++ "*/"] =
        normalize false [code] := by
      simp [normalize, stripLine_blockComment code c h hb,
        stripLine_plain code h]
    exact ⟨by unfold iter_global_declarations; rw [hn],
           fun C fuel => by
             unfold pipelineVars iter_global_declarations; rw [hn]⟩

/-- C7, witness: the trailing-comment parts applied to `int stmt;` with a
trailing line comment and a trailing block comment. -/
theorem c7_comment_round_trip_witness :
    plainCode ("int stmt;" : String).data = true ∧
    plainBlock (" int x; " : String).data = true ∧
    iter_global_declarations ["int stmt;" ++ "//" ++ " ..."] =
      iter_global_declarations ["int stmt;"] ∧
    iter_global_declarations ["int stmt;" ++ "/*" ++ " int x; " ++ "*/"] =
      iter_global_declarations ["int stmt;"] :=
  ⟨by decide, by decide,
   (c7_comment_round_trip.2.1 "int stmt;" " ..." (by decide)).1,
   (c7_comment_round_trip.2.2 "int stmt;" " int x; " (by decide) (by decide)).1⟩

/-- C8: a name already yielded for an enclosing scope and re-declared in a
function produces a second, distinct record with its own
enclosing-function field — the Scenario D collision input yields both
`(None, var2, int)` and `(stop, var2, int)`, with no deduplication. -/
theorem c8_no_shadowing_dedup :
    (iter_variables collisionCollab 2 collisionDecls).1 =
      [(none, "var2", "int"), (some "stop", "var2", "int")] ∧
    ((none : Option String), "var2", "int") ∈
      (iter_variables collisionCollab 2 collisionDecls).1 ∧
    ((some "stop" : Option String), "var2", "int") ∈
      (iter_variables collisionCollab 2 collisionDecls).1 :=
  ⟨rfl, by decide, by decide⟩

end CGParse

namespace CFiles

/-- C9, counterexample: a call with a non-string root does not fail fast
with an invalid-argument error — an empty iterable of roots completes with
no error at all, and a list of one string root fails with `NameError`
(`_walk`), which is not an invalid-argument (`ValueError`) error. -/
theorem c9_root_validation_counterexample :
    iter_files (Root.iter []) Suffix.none none GetFiles.osWalk
        (fun _ => []) = ([], none) ∧
    iter_files (Root.iter [Root.str "a"]) Suffix.none none GetFiles.osWalk
        (fun _ => []) = ([], some (PyErr.nameError "_walk")) ∧
    isInvalidArgument (PyErr.nameError "_walk") = false :=
  ⟨rfl, rfl, rfl⟩

/-- C9, amended: the file-enumeration entry points validate only the
`suffix` argument, not the root: `walk_tree` and `glob_tree` raise
`ValueError("suffix must be a string")` before yielding any file when given
a truthy non-string suffix (on first iteration, since they are generators,
not at the call boundary), while a non-string root is accepted by
`iter_files` as an iterable of roots and raises no invalid-argument
error. -/
theorem c9_root_validation_amended :
    (∀ (root : String) (sfx : Suffix) (walk : String → WalkGen),
        sfx.truthy = true → sfx.isStr = false →
        walk_tree root sfx walk =
          ([], some (PyErr.valueError "suffix must be a string"))) ∧
    (∀ (root : String) (sfx : Suffix) (g : String → List String),
        sfx.truthy = true → sfx.isStr = false →
        glob_tree root sfx g =
          ([], some (PyErr.valueError "suffix must be a string"))) ∧
    iter_files (Root.iter []) Suffix.none none GetFiles.osWalk
        (fun _ => []) = ([], none) := by
  refine ⟨?_, ?_, rfl⟩
  · intro root sfx walk h1 h2
    simp [walk_tree, h1, h2]
  · intro root sfx g h1 h2
    simp [glob_tree, h1, h2]

/-- C9, witness: the suffix validation applied to a concrete tuple
suffix. -/
theorem c9_root_validation_amended_witness :
    Suffix.truthy (Suffix.strs [".c"]) = true ∧
    Suffix.isStr (Suffix.strs [".c"]) = false ∧
    walk_tree "Modules" (Suffix.strs [".c"]) _walk_tree =
      ([], some (PyErr.valueError "suffix must be a string")) :=
  ⟨rfl, rfl,
   c9_root_validation_amended.1 "Modules" (Suffix.strs [".c"]) _walk_tree
     rfl rfl⟩

/-- C10: iterating `iter_files` on any string root with its default
arguments raises `NameError` for the undefined module-level name `_walk`
before yielding any file, and every call to `iter_files_by_suffix` with at
least one suffix (a bare string, or a non-empty list of strings) raises
`NameError` for the undefined name `get_files` before yielding. -/
theorem c10_undefined_names :
    (∀ (root : String) (g : String → List String),
        iter_files (Root.str root) Suffix.none none GetFiles.osWalk g =
          ([], some (PyErr.nameError "_walk"))) ∧
    (∀ (root : Root) (s : String),
        iter_files_by_suffix root (Suffix.str s) =
          ([], some (PyErr.nameError "get_files"))) ∧
    (∀ (root : Root) (s : String) (ss : List String),
        iter_files_by_suffix root (Suffix.strs (s :: ss)) =
          ([], some (PyErr.nameError "get_files"))) :=
  ⟨fun _ _ => rfl, fun _ _ => rfl, fun _ _ _ => rfl⟩

end CFiles
